import Mathlib

/-!
Verification of the go-web product CRUD service.

The development shallowly embeds the final (canonical) handler → service → repository
chain of the repository:

* `Product` mirrors the Go struct `domain.Product` (`id, name, quantity, code_value,
  is_published, expiration, price`).  The Go `float64` price is modelled as `ℚ`: every
  price occurring in the program is a finite decimal and the only operation performed
  on prices is the strict-order comparison `>`, on which finite doubles and rationals
  agree.
* The repository (`RepositoryImpl.*`) owns a `List Product`; Go methods that mutate
  `r.productList` are embedded as functions returning the result together with the new
  list.  A Go `(T, error)` pair becomes `Except RepoErr T`.
* The service (`ServiceImpl.*`) delegates to the repository.
* The handler (`ProductHandler.*`) is embedded over the already-decoded request parts:
  the `token` header (the empty string when the header is absent, as Go's
  `c.GetHeader` returns `""` then), the raw `:id` path parameter, and the decoded JSON
  body (`none` models a `ShouldBindJSON` failure).  The wall clock `time.Now()` is an
  arbitrary rational number of days on the timeline used by `civilDays` below.
-/

/-- The product record, mirroring `domain.Product` / the `Product` struct in
`src/main.go`: id, name, quantity, code_value, is_published, expiration (a
`DD/MM/YYYY` string), price. -/
structure Product where
  id : Int
  name : String
  quantity : Int
  codeValue : String
  isPublished : Bool
  expiration : String
  price : ℚ
deriving DecidableEq, Repr

/-- Errors produced by the repository layer: `notFound` stands for
`errors.New("product not found")` and `invalidCodeValue` for the duplicate-code
rejection (`errors.New("invalid code value")` on create, `ErrInvalidCode` on update). -/
inductive RepoErr where
  | notFound
  | invalidCodeValue
deriving DecidableEq, Repr

/-- Errors produced by the service layer: the repository errors passed through, plus
`noProducts` for `errors.New("no products found")` from `ServiceImpl.GetByPriceGt`. -/
inductive SvcErr where
  | notFound
  | invalidCodeValue
  | noProducts
deriving DecidableEq, Repr

deriving instance DecidableEq for Except

/-- `RepositoryImpl.GetAll`: returns the whole product list. -/
def RepositoryImpl.GetAll (productList : List Product) : List Product :=
  productList

/-- `RepositoryImpl.GetById`: linear scan returning the first product whose `Id`
matches, or the `product not found` error. -/
def RepositoryImpl.GetById : List Product → Int → Except RepoErr Product
  | [], _ => .error .notFound
  | p :: ps, id => if p.id = id then .ok p else RepositoryImpl.GetById ps id

/-- `RepositoryImpl.GetByPriceGt`: starts from a nil slice and appends, in list order,
every product whose price is strictly greater than the given price. -/
def RepositoryImpl.GetByPriceGt (productList : List Product) (price : ℚ) : List Product :=
  productList.foldl (fun acc p => if p.price > price then acc ++ [p] else acc) []

/-- `RepositoryImpl.validateCodeValue`: returns `false` as soon as some stored product
already carries the given code value, `true` otherwise. -/
def RepositoryImpl.validateCodeValue : List Product → String → Bool
  | [], _ => true
  | p :: ps, codeValue =>
    if p.codeValue = codeValue then false else RepositoryImpl.validateCodeValue ps codeValue

/-- `RepositoryImpl.Create`: rejects a duplicate code value with an error (leaving the
list untouched); otherwise overwrites the incoming product's id with
`len(r.productList) + 1` and appends it.  The pair carries the Go method's return
value together with the post-state of `r.productList`. -/
def RepositoryImpl.Create (productList : List Product) (product : Product) :
    Except RepoErr Product × List Product :=
  if ¬ RepositoryImpl.validateCodeValue productList product.codeValue then
    (.error .invalidCodeValue, productList)
  else
    let created := { product with id := (productList.length : Int) + 1 }
    (.ok created, productList ++ [created])

/-- Removal of the first product carrying the given id (the slice surgery performed by
the delete operation). -/
def removeFirstById : List Product → Int → List Product
  | [], _ => []
  | p :: ps, id => if p.id = id then ps else p :: removeFirstById ps id

/-- Replacement of the first product carrying the given id by the given record. -/
def replaceFirstById : List Product → Int → Product → List Product
  | [], _, _ => []
  | p :: ps, id, q => if p.id = id then q :: ps else p :: replaceFirstById ps id q

/-- Field-wise merge of a stored product with an update payload: a zero-valued payload
field (empty string, `0`, `false`) is treated as unset and leaves the stored field
unchanged; the id is never overwritten. -/
def mergeProduct (old upd : Product) : Product :=
  { id := old.id
    name := if upd.name = "" then old.name else upd.name
    quantity := if upd.quantity = 0 then old.quantity else upd.quantity
    codeValue := if upd.codeValue = "" then old.codeValue else upd.codeValue
    isPublished := if upd.isPublished = false then old.isPublished else upd.isPublished
    expiration := if upd.expiration = "" then old.expiration else upd.expiration
    price := if upd.price = 0 then old.price else upd.price }

/-- Modelled from the spec: the repository `Update` operation is not among the source
files (only its handler callers are).  Per the spec it locates the product by id,
returns NotFound if absent, applies the full-or-partial field overwrite where
zero-value payload fields are treated as unset, and rejects (`ErrInvalidCode`, mapped
to 400 by the handler) a resulting code value already carried by a different product. -/
def RepositoryImpl.Update (productList : List Product) (id : Int) (upd : Product) :
    Except RepoErr Product × List Product :=
  match RepositoryImpl.GetById productList id with
  | .error e => (.error e, productList)
  | .ok old =>
    let merged := mergeProduct old upd
    if productList.any (fun p => p.codeValue = merged.codeValue ∧ p.id ≠ id) then
      (.error .invalidCodeValue, productList)
    else
      (.ok merged, replaceFirstById productList id merged)

/-- Modelled from the spec: the repository `Delete` operation is not among the source
files (only its handler caller is).  Per the spec it locates the product by id,
returns NotFound if absent, and otherwise removes that product permanently. -/
def RepositoryImpl.Delete (productList : List Product) (id : Int) :
    Except RepoErr Unit × List Product :=
  match RepositoryImpl.GetById productList id with
  | .error e => (.error e, productList)
  | .ok _ => (.ok (), removeFirstById productList id)

/-- Lifting of repository errors into service errors (the service returns the
repository's error values unchanged). -/
def SvcErr.ofRepo : RepoErr → SvcErr
  | .notFound => .notFound
  | .invalidCodeValue => .invalidCodeValue

/-- `ServiceImpl.GetAll`: pure delegation. -/
def ServiceImpl.GetAll (productList : List Product) : List Product :=
  RepositoryImpl.GetAll productList

/-- `ServiceImpl.GetById`: delegation, passing the repository's error through. -/
def ServiceImpl.GetById (productList : List Product) (id : Int) : Except SvcErr Product :=
  match RepositoryImpl.GetById productList id with
  | .error e => .error (SvcErr.ofRepo e)
  | .ok p => .ok p

/-- `ServiceImpl.GetByPriceGt`: delegates to the repository and turns a zero-length
match list into the `no products found` error. -/
def ServiceImpl.GetByPriceGt (productList : List Product) (price : ℚ) :
    Except SvcErr (List Product) :=
  let products := RepositoryImpl.GetByPriceGt productList price
  if products.length = 0 then .error .noProducts else .ok products

/-- `ServiceImpl.Create`: delegation, passing the repository's error through. -/
def ServiceImpl.Create (productList : List Product) (product : Product) :
    Except SvcErr Product × List Product :=
  match RepositoryImpl.Create productList product with
  | (.error e, l) => (.error (SvcErr.ofRepo e), l)
  | (.ok q, l) => (.ok q, l)

/-- Modelled from the spec: the service `Update` operation is not among the source
files; per the spec the service is pure delegation over the repository. -/
def ServiceImpl.Update (productList : List Product) (id : Int) (upd : Product) :
    Except SvcErr Product × List Product :=
  match RepositoryImpl.Update productList id upd with
  | (.error e, l) => (.error (SvcErr.ofRepo e), l)
  | (.ok q, l) => (.ok q, l)

/-- Modelled from the spec: the service `Delete` operation is not among the source
files; per the spec the service is pure delegation over the repository. -/
def ServiceImpl.Delete (productList : List Product) (id : Int) :
    Except SvcErr Unit × List Product :=
  match RepositoryImpl.Delete productList id with
  | (.error e, l) => (.error (SvcErr.ofRepo e), l)
  | (.ok u, l) => (.ok u, l)

/-- Numeric value of a decimal digit character, `none` on a non-digit (the digit
requirement of Go's fixed-width number fields in `time.Parse`). -/
def digitVal : Char → Option Nat
  | c => if '0' ≤ c ∧ c ≤ '9' then some (c.toNat - 48) else none

/-- Go's `isLeap`: a Gregorian leap year. -/
def isLeap (year : Nat) : Bool :=
  year % 4 = 0 ∧ (year % 100 ≠ 0 ∨ year % 400 = 0)

/-- Go's `daysIn`: number of days of a month (1–12) in a given year. -/
def daysIn (month year : Nat) : Nat :=
  if month = 2 then (if isLeap year then 29 else 28)
  else if month = 4 ∨ month = 6 ∨ month = 9 ∨ month = 11 then 30
  else 31

/-- Embedding of `time.Parse("02/01/2006", s)`: the layout demands exactly two digits
of day, a slash, two digits of month, a slash, four digits of year, and nothing after;
Go then rejects a month outside 1–12 (`month out of range`) and a day outside
1–`daysIn(month, year)` (`day out of range`).  Returns `(year, month, day)`. -/
def goParseDate (s : String) : Option (Nat × Nat × Nat) :=
  match s.data with
  | [d1, d2, s1, m1, m2, s2, y1, y2, y3, y4] =>
    match digitVal d1, digitVal d2, digitVal m1, digitVal m2,
        digitVal y1, digitVal y2, digitVal y3, digitVal y4 with
    | some a, some b, some c, some d, some e, some f, some g, some h =>
      if s1 = '/' ∧ s2 = '/' then
        let day := 10 * a + b
        let month := 10 * c + d
        let year := 1000 * e + 100 * f + 10 * g + h
        if 1 ≤ month ∧ month ≤ 12 then
          if 1 ≤ day ∧ day ≤ daysIn month year then some (year, month, day) else none
        else none
      else none
    | _, _, _, _, _, _, _, _ => none
  | _ => none

/-- Day number of a calendar date on a linear timeline (the standard civil-from-days
era computation over the 146097-day Gregorian 400-year cycle).  The year argument is
the calendar year shifted up by 400 — an offset constant on the whole timeline, chosen
so the computation stays in `Nat` for every 4-digit year — so the map is strictly
increasing in calendar order, which is all that comparing two instants needs. -/
def civilDays (yShifted month day : Nat) : Nat :=
  let y := if month ≤ 2 then yShifted - 1 else yShifted
  let era := y / 400
  let yoe := y % 400
  let mp := (month + 9) % 12
  let doy := (153 * mp + 2) / 5 + (day - 1)
  let doe := yoe * 365 + yoe / 4 - yoe / 100 + doy
  era * 146097 + doe

/-- The instant (in days on the `civilDays` timeline, as a rational so it can be
compared with a wall-clock instant of arbitrary precision) of midnight of a parsed
`(year, month, day)` date. -/
def dateInstant : Nat × Nat × Nat → ℚ
  | (year, month, day) => (civilDays (year + 400) month day : ℚ)

/-- The two error values of `validateDate`: `invalid expiration date format` and
`expiration date must be after current date`. -/
inductive DateErr where
  | invalidFormat
  | pastDate
deriving DecidableEq, Repr

/-- `validateDate` of the canonical handler: parse the date with layout `02/01/2006`
(DD/MM/YYYY); on failure return `(false, format error)`; if the parsed date is before
`now` (`parsedDate.Before(time.Now())`) return `(false, past-date error)`; otherwise
`(true, no error)`. -/
def validateDate (date : String) (now : ℚ) : Bool × Option DateErr :=
  match goParseDate date with
  | none => (false, some .invalidFormat)
  | some ymd => if dateInstant ymd < now then (false, some .pastDate) else (true, none)

/-- Digits-to-number reading of a non-empty all-digit character list, `none`
otherwise. -/
def digitsToNat : List Char → Option Nat
  | [] => none
  | cs => cs.foldl
      (fun acc c => match acc, digitVal c with
        | some n, some d => some (10 * n + d)
        | _, _ => none)
      (some 0)

/-- Embedding of `strconv.Atoi`: an optional sign followed by at least one digit and
nothing else.  (The int64 range check is irrelevant at the sizes handled here.) -/
def Atoi (s : String) : Option Int :=
  match s.data with
  | '+' :: ds => (digitsToNat ds).map (fun n => (n : Int))
  | '-' :: ds => (digitsToNat ds).map (fun n => -(n : Int))
  | ds => (digitsToNat ds).map (fun n => (n : Int))

/-- `isAuthorized` of the canonical handler: the request's `token` header (the empty
string when the header is absent) must equal the configured secret
`os.Getenv("TOKEN")` verbatim. -/
def isAuthorized (envToken token : String) : Bool :=
  token = envToken

/-- The middleware `TokenValidator`: rejects when the `token` header is empty, then
rejects when it differs from the configured secret; `true` means the request is let
through (`c.Next()`). -/
def TokenValidator (envToken token : String) : Bool :=
  if token = "" then false
  else if token ≠ envToken then false
  else true

/-- The application-level error kinds surfaced by the handler in the `{error: ...}`
envelope. -/
inductive AppErr where
  | invalidToken
  | invalidId
  | invalidData
  | invalidDateFormat
  | pastDate
  | notFound
  | invalidCodeValue
  | noProducts
deriving DecidableEq, Repr

/-- Handler error for a date-validation failure. -/
def AppErr.ofDate : Option DateErr → AppErr
  | some .invalidFormat => .invalidDateFormat
  | _ => .pastDate

/-- Handler error for a service-layer failure. -/
def AppErr.ofSvc : SvcErr → AppErr
  | .notFound => .notFound
  | .invalidCodeValue => .invalidCodeValue
  | .noProducts => .noProducts

/-- Modelled from the spec: the `pkg/web` response envelope is not among the source
files.  A success wraps its payload as `{data: ...}`; a nil payload (the delete
response) carries an empty body; a failure wraps the error as `{error: ...}`. -/
inductive HBody where
  | empty
  | data (p : Product)
  | dataList (ps : List Product)
  | err (e : AppErr)
deriving DecidableEq, Repr

/-- An HTTP response of the handler: status code and body. -/
structure HResponse where
  status : Nat
  body : HBody
deriving DecidableEq, Repr

/-- The PATCH request body shape (the handler's local `Request` struct): every field
optional, absent fields decoded to their zero values. -/
structure PatchRequest where
  name : String
  quantity : Int
  codeValue : String
  isPublished : Bool
  expiration : String
  price : ℚ
deriving DecidableEq, Repr

/-- The product literal the PATCH handler builds from its request body (the `Id` field
is left at its zero value). -/
def PatchRequest.toProduct (u : PatchRequest) : Product :=
  { id := 0
    name := u.name
    quantity := u.quantity
    codeValue := u.codeValue
    isPublished := u.isPublished
    expiration := u.expiration
    price := u.price }

/-- `ProductHandler.GetAll`: responds 200 with all products. -/
def ProductHandler.GetAll (productList : List Product) : HResponse :=
  { status := 200, body := .dataList (ServiceImpl.GetAll productList) }

/-- `ProductHandler.GetById`: parse the `:id` parameter (400/invalid-id on failure),
look the product up (404 on a service error), else 200 with the product. -/
def ProductHandler.GetById (idParam : String) (productList : List Product) : HResponse :=
  match Atoi idParam with
  | none => { status := 400, body := .err .invalidId }
  | some id =>
    match ServiceImpl.GetById productList id with
    | .error e => { status := 404, body := .err (AppErr.ofSvc e) }
    | .ok p => { status := 200, body := .data p }

/-- `ProductHandler.GetByPriceGt`: parse the `priceGt` query parameter (given here
already decoded; `none` models a `ParseFloat` failure answered 400/invalid-price),
then 404 on the service's empty-match error, else 200 with the filtered list. -/
def ProductHandler.GetByPriceGt (priceParam : Option ℚ) (productList : List Product) :
    HResponse :=
  match priceParam with
  | none => { status := 400, body := .err .invalidId }
  | some priceGt =>
    match ServiceImpl.GetByPriceGt productList priceGt with
    | .error e => { status := 404, body := .err (AppErr.ofSvc e) }
    | .ok ps => { status := 200, body := .dataList ps }

/-- `ProductHandler.Create`: token check (401), JSON body bind (400), expiration-date
validation (400), then `service.Create` (400 on error, else 201 with the created
product).  Returns the response together with the post-state of the collection. -/
def ProductHandler.Create (envToken : String) (now : ℚ) (token : String)
    (body : Option Product) (productList : List Product) : HResponse × List Product :=
  if ¬ isAuthorized envToken token then
    ({ status := 401, body := .err .invalidToken }, productList)
  else
    match body with
    | none => ({ status := 400, body := .err .invalidData }, productList)
    | some newProduct =>
      match validateDate newProduct.expiration now with
      | (false, e) => ({ status := 400, body := .err (AppErr.ofDate e) }, productList)
      | (true, _) =>
        match ServiceImpl.Create productList newProduct with
        | (.error e, l) => ({ status := 400, body := .err (AppErr.ofSvc e) }, l)
        | (.ok created, l) => ({ status := 201, body := .data created }, l)

/-- `ProductHandler.FullUpdate`: token check (401), `:id` parse (400), body bind
(400), date validation (400), then `service.Update` with NotFound mapped to 404 and
the invalid-code error to 400, else 200 with the updated product. -/
def ProductHandler.FullUpdate (envToken : String) (now : ℚ) (token idParam : String)
    (body : Option Product) (productList : List Product) : HResponse × List Product :=
  if ¬ isAuthorized envToken token then
    ({ status := 401, body := .err .invalidToken }, productList)
  else
    match Atoi idParam with
    | none => ({ status := 400, body := .err .invalidId }, productList)
    | some id =>
      match body with
      | none => ({ status := 400, body := .err .invalidData }, productList)
      | some newProductData =>
        match validateDate newProductData.expiration now with
        | (false, e) => ({ status := 400, body := .err (AppErr.ofDate e) }, productList)
        | (true, _) =>
          match ServiceImpl.Update productList id newProductData with
          | (.error .notFound, l) => ({ status := 404, body := .err .notFound }, l)
          | (.error .invalidCodeValue, l) =>
            ({ status := 400, body := .err .invalidCodeValue }, l)
          | (.error e, l) => ({ status := 200, body := .err (AppErr.ofSvc e) }, l)
          | (.ok updated, l) => ({ status := 200, body := .data updated }, l)

/-- `ProductHandler.PartialUpdate`: token check (401), `:id` parse (400), bind of the
optional-fields body (400), construction of the update product from the request
fields, date validation only when an expiration was supplied (400), then
`service.Update` with the same error mapping as the full update. -/
def ProductHandler.PartialUpdate (envToken : String) (now : ℚ) (token idParam : String)
    (body : Option PatchRequest) (productList : List Product) : HResponse × List Product :=
  if ¬ isAuthorized envToken token then
    ({ status := 401, body := .err .invalidToken }, productList)
  else
    match Atoi idParam with
    | none => ({ status := 400, body := .err .invalidId }, productList)
    | some id =>
      match body with
      | none => ({ status := 400, body := .err .invalidData }, productList)
      | some patchData =>
        let update := patchData.toProduct
        if update.expiration ≠ "" ∧ ¬ (validateDate update.expiration now).fst then
          ({ status := 400,
             body := .err (AppErr.ofDate (validateDate update.expiration now).snd) },
           productList)
        else
          match ServiceImpl.Update productList id update with
          | (.error .notFound, l) => ({ status := 404, body := .err .notFound }, l)
          | (.error .invalidCodeValue, l) =>
            ({ status := 400, body := .err .invalidCodeValue }, l)
          | (.error e, l) => ({ status := 200, body := .err (AppErr.ofSvc e) }, l)
          | (.ok updated, l) => ({ status := 200, body := .data updated }, l)

/-- `ProductHandler.Delete`: token check (401), `:id` parse (400), then
`service.Delete` (404 on error); on success 204 with a nil payload, hence an empty
body. -/
def ProductHandler.Delete (envToken : String) (token idParam : String)
    (productList : List Product) : HResponse × List Product :=
  if ¬ isAuthorized envToken token then
    ({ status := 401, body := .err .invalidToken }, productList)
  else
    match Atoi idParam with
    | none => ({ status := 400, body := .err .invalidId }, productList)
    | some id =>
      match ServiceImpl.Delete productList id with
      | (.error e, l) => ({ status := 404, body := .err (AppErr.ofSvc e) }, l)
      | (.ok _, l) => ({ status := 204, body := .empty }, l)

/-! Helper lemmas about the repository scans. -/

theorem validateCodeValue_true_iff (l : List Product) (c : String) :
    RepositoryImpl.validateCodeValue l c = true ↔ ∀ p ∈ l, p.codeValue ≠ c := by
  induction l with
  | nil => simp [RepositoryImpl.validateCodeValue]
  | cons p ps ih =>
    by_cases h : p.codeValue = c
    · simp [RepositoryImpl.validateCodeValue, h]
    · simp [RepositoryImpl.validateCodeValue, h, ih]

theorem getById_error_iff (l : List Product) (i : Int) :
    RepositoryImpl.GetById l i = .error .notFound ↔ ∀ p ∈ l, p.id ≠ i := by
  induction l with
  | nil => simp [RepositoryImpl.GetById]
  | cons p ps ih =>
    by_cases h : p.id = i
    · simp [RepositoryImpl.GetById, h]
    · simp [RepositoryImpl.GetById, h, ih]

theorem getById_ok_of_mem_nodup {l : List Product} {p : Product} {i : Int}
    (hnd : (l.map Product.id).Nodup) (hmem : p ∈ l) (hid : p.id = i) :
    RepositoryImpl.GetById l i = .ok p := by
  induction l with
  | nil => cases hmem
  | cons q qs ih =>
    rcases List.mem_cons.mp hmem with rfl | hmem'
    · simp [RepositoryImpl.GetById, hid]
    · have hq : q.id ≠ i := by
        intro hqi
        have hmap : p.id ∈ qs.map Product.id := List.mem_map_of_mem _ hmem'
        rw [hid, ← hqi] at hmap
        exact (List.nodup_cons.mp hnd).1 hmap
      simp only [RepositoryImpl.GetById, if_neg hq]
      exact ih (List.nodup_cons.mp hnd).2 hmem'

theorem getById_append_left_none {l l' : List Product} {i : Int}
    (h : ∀ p ∈ l, p.id ≠ i) :
    RepositoryImpl.GetById (l ++ l') i = RepositoryImpl.GetById l' i := by
  induction l with
  | nil => simp
  | cons p ps ih =>
    have hp : p.id ≠ i := h p (List.mem_cons_self p ps)
    simpa [RepositoryImpl.GetById, hp] using ih (fun q hq => h q (List.mem_cons_of_mem _ hq))

theorem getById_exists_ok {l : List Product} {i : Int} (h : ∃ p ∈ l, p.id = i) :
    ∃ q, RepositoryImpl.GetById l i = .ok q := by
  induction l with
  | nil => simp at h
  | cons p ps ih =>
    by_cases hp : p.id = i
    · exact ⟨p, by simp [RepositoryImpl.GetById, hp]⟩
    · rcases h with ⟨q, hq, hqi⟩
      rcases List.mem_cons.mp hq with rfl | hq'
      · exact absurd hqi hp
      · rcases ih ⟨q, hq', hqi⟩ with ⟨q', hq''⟩
        exact ⟨q', by simpa [RepositoryImpl.GetById, hp] using hq''⟩

theorem getById_removeFirst {l : List Product} {i : Int}
    (hnd : (l.map Product.id).Nodup) :
    RepositoryImpl.GetById (removeFirstById l i) i = .error .notFound := by
  induction l with
  | nil => simp [removeFirstById, RepositoryImpl.GetById]
  | cons p ps ih =>
    by_cases hp : p.id = i
    · have : ∀ q ∈ ps, q.id ≠ i := by
        intro q hq hqi
        have : q.id ∈ ps.map Product.id := List.mem_map_of_mem _ hq
        rw [hqi, ← hp] at this
        exact (List.nodup_cons.mp hnd).1 this
      simpa [removeFirstById, hp] using (getById_error_iff ps i).mpr this
    · simpa [removeFirstById, RepositoryImpl.GetById, hp] using
        ih (List.nodup_cons.mp hnd).2

theorem foldlPriceGt_eq (price : ℚ) (l : List Product) (acc : List Product) :
    l.foldl (fun acc p => if p.price > price then acc ++ [p] else acc) acc =
      acc ++ l.filter (fun p => decide (price < p.price)) := by
  induction l generalizing acc with
  | nil => simp
  | cons p ps ih =>
    by_cases h : price < p.price
    · simp [List.filter_cons, h, ih]
    · simp [List.filter_cons, h, ih]

/-- C1 (amended): for every repository state and every product `p` whose code value
differs from that of every stored product, `Create p` succeeds, assigns the new
product the id `count + 1` (the length of the list before the call, plus one), and
appends it to the collection; and, provided no product already in the collection
carries the id `count + 1`, the new product is retrievable afterward via `GetById`. -/
theorem create_unique_code_appends (r : List Product) (p : Product)
    (hfresh : ∀ q ∈ r, q.codeValue ≠ p.codeValue) :
    RepositoryImpl.Create r p =
      (.ok { p with id := (r.length : Int) + 1 },
        r ++ [{ p with id := (r.length : Int) + 1 }]) ∧
    ((∀ q ∈ r, q.id ≠ (r.length : Int) + 1) →
      RepositoryImpl.GetById (r ++ [{ p with id := (r.length : Int) + 1 }])
        ((r.length : Int) + 1) = .ok { p with id := (r.length : Int) + 1 }) := by
  have hv : RepositoryImpl.validateCodeValue r p.codeValue = true :=
    (validateCodeValue_true_iff r p.codeValue).mpr hfresh
  refine ⟨by simp [RepositoryImpl.Create, hv], fun hids => ?_⟩
  rw [getById_append_left_none hids]
  simp [RepositoryImpl.GetById]

theorem create_unique_code_appends_witness :
    RepositoryImpl.Create [⟨1, "a", 1, "A", false, "e", 5⟩] ⟨0, "b", 2, "B", true, "f", 7⟩ =
      (.ok ⟨2, "b", 2, "B", true, "f", 7⟩,
        [⟨1, "a", 1, "A", false, "e", 5⟩, ⟨2, "b", 2, "B", true, "f", 7⟩]) ∧
    RepositoryImpl.GetById
      [⟨1, "a", 1, "A", false, "e", 5⟩, ⟨2, "b", 2, "B", true, "f", 7⟩] 2 =
      .ok ⟨2, "b", 2, "B", true, "f", 7⟩ := by
  have h := create_unique_code_appends [⟨1, "a", 1, "A", false, "e", 5⟩]
    ⟨0, "b", 2, "B", true, "f", 7⟩ (by decide)
  exact ⟨h.1, h.2 (by decide)⟩

/-- C1, original reading refuted: on the state holding the single product
`⟨2, "a", …⟩` (which already carries the id `count + 1 = 2`), creating the
fresh-coded product `⟨0, "b", …⟩` succeeds with id 2, yet `GetById 2` on the
resulting collection returns the pre-existing record, not the new one. -/
theorem create_retrieval_counterexample :
    RepositoryImpl.Create [⟨2, "a", 1, "A", false, "e", 5⟩] ⟨0, "b", 2, "B", true, "f", 7⟩ =
      (.ok ⟨2, "b", 2, "B", true, "f", 7⟩,
        [⟨2, "a", 1, "A", false, "e", 5⟩, ⟨2, "b", 2, "B", true, "f", 7⟩]) ∧
    RepositoryImpl.GetById
      [⟨2, "a", 1, "A", false, "e", 5⟩, ⟨2, "b", 2, "B", true, "f", 7⟩] 2 =
      .ok ⟨2, "a", 1, "A", false, "e", 5⟩ ∧
    (⟨2, "a", 1, "A", false, "e", 5⟩ : Product) ≠ ⟨2, "b", 2, "B", true, "f", 7⟩ := by
  decide

/-- C2: for every repository state and every product `p` whose code value equals that
of some stored product, `Create p` returns an error and the collection is exactly the
state before the call. -/
theorem create_duplicate_code_rejected (r : List Product) (p : Product)
    (hdup : ∃ q ∈ r, q.codeValue = p.codeValue) :
    RepositoryImpl.Create r p = (.error .invalidCodeValue, r) := by
  have hv : ¬ RepositoryImpl.validateCodeValue r p.codeValue = true := by
    rw [validateCodeValue_true_iff]
    rcases hdup with ⟨q, hq, hqc⟩
    exact fun h => h q hq hqc
  simp [RepositoryImpl.Create, hv]

theorem create_duplicate_code_rejected_witness :
    RepositoryImpl.Create [⟨1, "a", 1, "A", false, "e", 5⟩] ⟨0, "b", 2, "A", true, "f", 7⟩ =
      (.error .invalidCodeValue, [⟨1, "a", 1, "A", false, "e", 5⟩]) :=
  create_duplicate_code_rejected [⟨1, "a", 1, "A", false, "e", 5⟩]
    ⟨0, "b", 2, "A", true, "f", 7⟩ ⟨⟨1, "a", 1, "A", false, "e", 5⟩, by decide, by decide⟩

/-- C3 (amended): if `Create p` succeeds on state `r` returning product `q` with the
new state `r'`, and no product of `r` already carried the id assigned to `q`, then
`GetById q.id` on `r'` returns a record identical to `q`. -/
theorem create_getById_roundtrip (r r' : List Product) (p q : Product)
    (h : RepositoryImpl.Create r p = (.ok q, r'))
    (hids : ∀ x ∈ r, x.id ≠ q.id) :
    RepositoryImpl.GetById r' q.id = .ok q := by
  unfold RepositoryImpl.Create at h
  by_cases hv : RepositoryImpl.validateCodeValue r p.codeValue = true
  · rw [if_neg (not_not_intro hv)] at h
    simp only [Prod.mk.injEq, Except.ok.injEq] at h
    obtain ⟨hq, hr⟩ := h
    subst hq hr
    rw [getById_append_left_none hids]
    simp [RepositoryImpl.GetById]
  · rw [if_pos hv] at h
    simp at h

theorem create_getById_roundtrip_witness :
    RepositoryImpl.GetById [⟨1, "a", 1, "A", false, "e", 5⟩, ⟨2, "c", 3, "C", false, "g", 9⟩]
      (2 : Int) = .ok ⟨2, "c", 3, "C", false, "g", 9⟩ :=
  create_getById_roundtrip [⟨1, "a", 1, "A", false, "e", 5⟩]
    [⟨1, "a", 1, "A", false, "e", 5⟩, ⟨2, "c", 3, "C", false, "g", 9⟩]
    ⟨0, "c", 3, "C", false, "g", 9⟩ ⟨2, "c", 3, "C", false, "g", 9⟩
    (by decide) (by decide)

/-- C3, original reading refuted: on the state `[⟨1, "x", …⟩, ⟨3, "y", …⟩]` (two
products, the second already carrying the id `count + 1 = 3`), creating the
fresh-coded product `⟨0, "z", …⟩` succeeds returning a product with id 3, yet
`GetById 3` on the resulting state returns the pre-existing record `⟨3, "y", …⟩`,
which is not identical to the created one. -/
theorem create_getById_roundtrip_counterexample :
    RepositoryImpl.Create [⟨1, "x", 1, "X", false, "e", 3⟩, ⟨3, "y", 1, "Y", false, "e", 4⟩]
      ⟨0, "z", 1, "Z", false, "e", 6⟩ =
      (.ok ⟨3, "z", 1, "Z", false, "e", 6⟩,
        [⟨1, "x", 1, "X", false, "e", 3⟩, ⟨3, "y", 1, "Y", false, "e", 4⟩,
          ⟨3, "z", 1, "Z", false, "e", 6⟩]) ∧
    RepositoryImpl.GetById
      [⟨1, "x", 1, "X", false, "e", 3⟩, ⟨3, "y", 1, "Y", false, "e", 4⟩,
        ⟨3, "z", 1, "Z", false, "e", 6⟩] 3 = .ok ⟨3, "y", 1, "Y", false, "e", 4⟩ ∧
    (⟨3, "y", 1, "Y", false, "e", 4⟩ : Product) ≠ ⟨3, "z", 1, "Z", false, "e", 6⟩ := by
  decide

/-- C4: the repository's `GetByPriceGt price` is exactly the sublist of the collection
whose members have price strictly greater than `price`, in the original order (the
list filter), with no error channel at all; the service's `GetByPriceGt price` is that
same list when it is non-empty and the `no products found` error when it is empty. -/
theorem getByPriceGt_filters (r : List Product) (price : ℚ) :
    RepositoryImpl.GetByPriceGt r price =
      r.filter (fun p => decide (price < p.price)) ∧
    ServiceImpl.GetByPriceGt r price =
      (if r.filter (fun p => decide (price < p.price)) = [] then .error .noProducts
       else .ok (r.filter (fun p => decide (price < p.price)))) := by
  have h1 : RepositoryImpl.GetByPriceGt r price =
      r.filter (fun p => decide (price < p.price)) := by
    rw [RepositoryImpl.GetByPriceGt]
    simpa using foldlPriceGt_eq price r []
  refine ⟨h1, ?_⟩
  rw [ServiceImpl.GetByPriceGt, h1]
  simp [List.length_eq_zero]

/-- C5 (amended): `validateDate` accepts a date string for clock `now` exactly when
the string parses in the `DD/MM/YYYY` layout and the parsed date is not strictly
before `now` (dates on or after the clock instant are accepted); every rejection
carries an error; in particular, for the fixed reference clock 15/06/2020 (which lies
between them), `"01/01/2000"` is rejected as past and `"01/01/2099"` is accepted. -/
theorem validateDate_on_or_after :
    (∀ (s : String) (now : ℚ),
      (validateDate s now).fst = true ↔
        ∃ ymd, goParseDate s = some ymd ∧ ¬ dateInstant ymd < now) ∧
    (∀ (s : String) (now : ℚ),
      (validateDate s now).fst = false → ((validateDate s now).snd).isSome = true) ∧
    validateDate "01/01/2000" ((civilDays 2420 6 15 : ℚ)) = (false, some .pastDate) ∧
    validateDate "01/01/2099" ((civilDays 2420 6 15 : ℚ)) = (true, none) := by
  refine ⟨fun s now => ?_, fun s now => ?_, by decide, by decide⟩
  · rw [validateDate]
    cases hp : goParseDate s with
    | none => simp
    | some ymd =>
      by_cases hlt : dateInstant ymd < now
      · simp [hlt]
      · constructor
        · intro _
          exact ⟨ymd, rfl, hlt⟩
        · intro _
          simp [hlt]
  · rw [validateDate]
    cases hp : goParseDate s with
    | none => simp
    | some ymd =>
      by_cases hlt : dateInstant ymd < now
      · simp [hlt]
      · simp [hlt]

/-- C5, original reading refuted: with the reference clock at exactly midnight of
01/01/2000, the string `"01/01/2000"` parses to a date that is not strictly after the
clock, yet `validateDate` accepts it (the code only rejects dates strictly before the
clock). -/
theorem validateDate_boundary_counterexample :
    (validateDate "01/01/2000" ((civilDays 2400 1 1 : ℚ))).fst = true ∧
    goParseDate "01/01/2000" = some (2000, 1, 1) ∧
    ¬ ((civilDays 2400 1 1 : ℚ)) < dateInstant (2000, 1, 1) := by
  decide

/-- C6 (amended): for every mutating request — Create, FullUpdate, PartialUpdate,
Delete — whose `token` header value (the empty string when the header is absent)
differs from the configured secret, the handler responds 401 with the invalid-token
error and the product collection is exactly the state before the request. -/
theorem mutating_handlers_unauthorized (envToken : String) (now : ℚ)
    (token idParam : String) (body : Option Product) (patch : Option PatchRequest)
    (r : List Product) (h : token ≠ envToken) :
    ProductHandler.Create envToken now token body r =
      ({ status := 401, body := .err .invalidToken }, r) ∧
    ProductHandler.FullUpdate envToken now token idParam body r =
      ({ status := 401, body := .err .invalidToken }, r) ∧
    ProductHandler.PartialUpdate envToken now token idParam patch r =
      ({ status := 401, body := .err .invalidToken }, r) ∧
    ProductHandler.Delete envToken token idParam r =
      ({ status := 401, body := .err .invalidToken }, r) := by
  refine ⟨?_, ?_, ?_, ?_⟩ <;>
    simp [ProductHandler.Create, ProductHandler.FullUpdate, ProductHandler.PartialUpdate,
      ProductHandler.Delete, isAuthorized, h]

theorem mutating_handlers_unauthorized_witness :
    ProductHandler.Create "secret" 0 "wrong" (some ⟨0, "a", 1, "A", false, "01/01/2099", 5⟩)
      [⟨1, "a", 1, "A", false, "e", 5⟩] =
      ({ status := 401, body := .err .invalidToken }, [⟨1, "a", 1, "A", false, "e", 5⟩]) ∧
    ProductHandler.FullUpdate "secret" 0 "wrong" "1"
      (some ⟨0, "a", 1, "A", false, "01/01/2099", 5⟩) [⟨1, "a", 1, "A", false, "e", 5⟩] =
      ({ status := 401, body := .err .invalidToken }, [⟨1, "a", 1, "A", false, "e", 5⟩]) ∧
    ProductHandler.PartialUpdate "secret" 0 "wrong" "1" (some ⟨"b", 0, "", false, "", 0⟩)
      [⟨1, "a", 1, "A", false, "e", 5⟩] =
      ({ status := 401, body := .err .invalidToken }, [⟨1, "a", 1, "A", false, "e", 5⟩]) ∧
    ProductHandler.Delete "secret" "wrong" "1" [⟨1, "a", 1, "A", false, "e", 5⟩] =
      ({ status := 401, body := .err .invalidToken }, [⟨1, "a", 1, "A", false, "e", 5⟩]) :=
  mutating_handlers_unauthorized "secret" 0 "wrong" "1"
    (some ⟨0, "a", 1, "A", false, "01/01/2099", 5⟩) (some ⟨"b", 0, "", false, "", 0⟩)
    [⟨1, "a", 1, "A", false, "e", 5⟩] (by decide)

/-- C6, original reading refuted: when the configured secret is the empty string and
the `token` header is absent (so `c.GetHeader "token"` yields `""`), a Create request
is not answered 401 — it is processed: here it answers 201 and appends the product. -/
theorem unauthorized_empty_secret_counterexample :
    (ProductHandler.Create "" 0 "" (some ⟨0, "n", 1, "B", false, "01/01/2099", 5⟩) []).fst.status
      = 201 ∧
    (ProductHandler.Create "" 0 "" (some ⟨0, "n", 1, "B", false, "01/01/2099", 5⟩) []).fst.status
      ≠ 401 ∧
    (ProductHandler.Create "" 0 "" (some ⟨0, "n", 1, "B", false, "01/01/2099", 5⟩) []).snd
      ≠ ([] : List Product) := by
  decide

/-- C7: on a repository state whose products have pairwise distinct ids, `GetById i`
(repository, and the service passing it through) returns the product carrying id `i`
when one is stored, and the not-found error when none is. -/
theorem getById_found_or_notFound (r : List Product) (i : Int)
    (hnd : (r.map Product.id).Nodup) :
    (∀ p ∈ r, p.id = i →
      RepositoryImpl.GetById r i = .ok p ∧ ServiceImpl.GetById r i = .ok p) ∧
    ((∀ p ∈ r, p.id ≠ i) →
      RepositoryImpl.GetById r i = .error .notFound ∧
      ServiceImpl.GetById r i = .error .notFound) := by
  constructor
  · intro p hmem hid
    have h := getById_ok_of_mem_nodup hnd hmem hid
    exact ⟨h, by simp [ServiceImpl.GetById, h]⟩
  · intro habs
    have h := (getById_error_iff r i).mpr habs
    exact ⟨h, by simp [ServiceImpl.GetById, h, SvcErr.ofRepo]⟩

theorem getById_found_or_notFound_witness :
    (RepositoryImpl.GetById [⟨1, "a", 1, "A", false, "e", 5⟩, ⟨2, "b", 2, "B", true, "f", 7⟩]
        2 = .ok ⟨2, "b", 2, "B", true, "f", 7⟩ ∧
      ServiceImpl.GetById [⟨1, "a", 1, "A", false, "e", 5⟩, ⟨2, "b", 2, "B", true, "f", 7⟩]
        2 = .ok ⟨2, "b", 2, "B", true, "f", 7⟩) ∧
    (RepositoryImpl.GetById [⟨1, "a", 1, "A", false, "e", 5⟩, ⟨2, "b", 2, "B", true, "f", 7⟩]
        9 = .error .notFound ∧
      ServiceImpl.GetById [⟨1, "a", 1, "A", false, "e", 5⟩, ⟨2, "b", 2, "B", true, "f", 7⟩]
        9 = .error .notFound) :=
  ⟨(getById_found_or_notFound
        [⟨1, "a", 1, "A", false, "e", 5⟩, ⟨2, "b", 2, "B", true, "f", 7⟩] 2 (by decide)).1
      ⟨2, "b", 2, "B", true, "f", 7⟩ (by decide) (by decide),
    (getById_found_or_notFound
        [⟨1, "a", 1, "A", false, "e", 5⟩, ⟨2, "b", 2, "B", true, "f", 7⟩] 9 (by decide)).2
      (by decide)⟩

/-- C8: on a collection whose products have pairwise distinct ids (the id uniqueness
the data model guarantees), an authorized delete request whose `:id` parameter parses
to `i` removes the product carrying id `i` when present — the handler responds 204
with an empty body and a subsequent `GetById i` returns the not-found error — and is
answered 404 when no product carries id `i`. -/
theorem delete_removes_product (envToken token idParam : String) (i : Int)
    (r : List Product) (htok : token = envToken) (hid : Atoi idParam = some i)
    (hnd : (r.map Product.id).Nodup) :
    ((∃ p ∈ r, p.id = i) →
      ProductHandler.Delete envToken token idParam r =
        ({ status := 204, body := .empty }, removeFirstById r i) ∧
      RepositoryImpl.GetById (removeFirstById r i) i = .error .notFound ∧
      ServiceImpl.GetById (removeFirstById r i) i = .error .notFound) ∧
    ((∀ p ∈ r, p.id ≠ i) →
      ProductHandler.Delete envToken token idParam r =
        ({ status := 404, body := .err .notFound }, r)) := by
  subst htok
  constructor
  · intro hex
    obtain ⟨q, hq⟩ := getById_exists_ok hex
    have hrem := getById_removeFirst (l := r) (i := i) hnd
    refine ⟨?_, hrem, by simp [ServiceImpl.GetById, hrem, SvcErr.ofRepo]⟩
    simp [ProductHandler.Delete, isAuthorized, hid, ServiceImpl.Delete,
      RepositoryImpl.Delete, hq]
  · intro habs
    have h := (getById_error_iff r i).mpr habs
    simp [ProductHandler.Delete, isAuthorized, hid, ServiceImpl.Delete,
      RepositoryImpl.Delete, h, SvcErr.ofRepo, AppErr.ofSvc]

theorem delete_removes_product_witness :
    (ProductHandler.Delete "s" "s" "1"
        [⟨1, "a", 1, "A", false, "e", 5⟩, ⟨2, "b", 2, "B", true, "f", 7⟩] =
        ({ status := 204, body := .empty }, [⟨2, "b", 2, "B", true, "f", 7⟩]) ∧
      RepositoryImpl.GetById [⟨2, "b", 2, "B", true, "f", 7⟩] 1 = .error .notFound ∧
      ServiceImpl.GetById [⟨2, "b", 2, "B", true, "f", 7⟩] 1 = .error .notFound) ∧
    ProductHandler.Delete "s" "s" "5"
        [⟨1, "a", 1, "A", false, "e", 5⟩, ⟨2, "b", 2, "B", true, "f", 7⟩] =
      ({ status := 404, body := .err .notFound },
        [⟨1, "a", 1, "A", false, "e", 5⟩, ⟨2, "b", 2, "B", true, "f", 7⟩]) :=
  ⟨(delete_removes_product "s" "s" "1" 1
      [⟨1, "a", 1, "A", false, "e", 5⟩, ⟨2, "b", 2, "B", true, "f", 7⟩]
      rfl (by decide) (by decide)).1
      ⟨⟨1, "a", 1, "A", false, "e", 5⟩, by decide, by decide⟩,
    (delete_removes_product "s" "s" "5" 5
      [⟨1, "a", 1, "A", false, "e", 5⟩, ⟨2, "b", 2, "B", true, "f", 7⟩]
      rfl (by decide) (by decide)).2 (by decide)⟩

/-- C10: with the configured secret equal to the empty string, the handler-level
check `isAuthorized` accepts a request carrying no `token` header (both compared
strings are empty), whereas the middleware `TokenValidator` rejects every request
whose `token` header is empty, whatever the secret. -/
theorem empty_secret_auth_divergence :
    isAuthorized "" "" = true ∧
    ∀ envToken : String, TokenValidator envToken "" = false :=
  ⟨by decide, fun envToken => by simp [TokenValidator]⟩

/-- C9: an authorized partial-update request that succeeds (status 200 returning
product `q`) overwrites, on the located product `p`, exactly the payload fields
supplied with non-zero values: every field whose payload value is the zero value of
its type (empty string, 0, false) keeps the stored product's value, every other field
takes the payload's value, and the id is never overwritten. -/
theorem partial_update_frame (envToken : String) (now : ℚ) (token idParam : String)
    (u : PatchRequest) (r r' : List Product) (i : Int) (p q : Product) (res : HResponse)
    (htok : token = envToken) (hid : Atoi idParam = some i)
    (hp : RepositoryImpl.GetById r i = .ok p)
    (hrun : ProductHandler.PartialUpdate envToken now token idParam (some u) r = (res, r'))
    (hok : res.status = 200) (hbody : res.body = .data q) :
    q.id = p.id ∧
    (u.name = "" → q.name = p.name) ∧ (u.name ≠ "" → q.name = u.name) ∧
    (u.quantity = 0 → q.quantity = p.quantity) ∧
    (u.quantity ≠ 0 → q.quantity = u.quantity) ∧
    (u.codeValue = "" → q.codeValue = p.codeValue) ∧
    (u.codeValue ≠ "" → q.codeValue = u.codeValue) ∧
    (u.isPublished = false → q.isPublished = p.isPublished) ∧
    (u.isPublished = true → q.isPublished = true) ∧
    (u.expiration = "" → q.expiration = p.expiration) ∧
    (u.expiration ≠ "" → q.expiration = u.expiration) ∧
    (u.price = 0 → q.price = p.price) ∧ (u.price ≠ 0 → q.price = u.price) := by
  subst htok
  simp only [ProductHandler.PartialUpdate, isAuthorized, hid] at hrun
  simp only [not_true, decide_True, Bool.not_eq_true, if_false] at hrun
  split at hrun
  · obtain ⟨h1, h2⟩ := Prod.mk.injEq .. |>.mp hrun
    rw [← h1] at hok
    simp at hok
  · by_cases hcol : ∃ x ∈ r, x.codeValue = (mergeProduct p u.toProduct).codeValue ∧ ¬ x.id = i
    · have hsvc : ServiceImpl.Update r i u.toProduct = (.error .invalidCodeValue, r) := by
        simp [ServiceImpl.Update, RepositoryImpl.Update, hp, hcol, SvcErr.ofRepo]
      rw [hsvc] at hrun
      simp only [Prod.mk.injEq] at hrun
      obtain ⟨h1, h2⟩ := hrun
      rw [← h1] at hok
      simp at hok
    · have hsvc : ServiceImpl.Update r i u.toProduct =
          (.ok (mergeProduct p u.toProduct),
            replaceFirstById r i (mergeProduct p u.toProduct)) := by
        simp [ServiceImpl.Update, RepositoryImpl.Update, hp, hcol]
      rw [hsvc] at hrun
      simp only [Prod.mk.injEq] at hrun
      obtain ⟨h1, h2⟩ := hrun
      rw [← h1] at hbody
      simp only [HBody.data.injEq] at hbody
      subst hbody
      refine ⟨by simp [mergeProduct], ?_, ?_, ?_, ?_, ?_, ?_, ?_, ?_, ?_, ?_, ?_, ?_⟩ <;>
        intro h <;> simp [mergeProduct, PatchRequest.toProduct, h]

theorem partial_update_frame_witness :
    ((⟨1, "NewName", 2, "A", true, "e", 5⟩ : Product).id =
        (⟨1, "Old", 2, "A", true, "e", 5⟩ : Product).id) ∧
    ((⟨"NewName", 0, "", false, "", 0⟩ : PatchRequest).name = "" →
      (⟨1, "NewName", 2, "A", true, "e", 5⟩ : Product).name = "Old") ∧
    ((⟨"NewName", 0, "", false, "", 0⟩ : PatchRequest).name ≠ "" →
      (⟨1, "NewName", 2, "A", true, "e", 5⟩ : Product).name = "NewName") ∧
    ((⟨"NewName", 0, "", false, "", 0⟩ : PatchRequest).quantity = 0 →
      (⟨1, "NewName", 2, "A", true, "e", 5⟩ : Product).quantity =
        (⟨1, "Old", 2, "A", true, "e", 5⟩ : Product).quantity) ∧
    ((⟨"NewName", 0, "", false, "", 0⟩ : PatchRequest).quantity ≠ 0 →
      (⟨1, "NewName", 2, "A", true, "e", 5⟩ : Product).quantity = 0) ∧
    ((⟨"NewName", 0, "", false, "", 0⟩ : PatchRequest).codeValue = "" →
      (⟨1, "NewName", 2, "A", true, "e", 5⟩ : Product).codeValue =
        (⟨1, "Old", 2, "A", true, "e", 5⟩ : Product).codeValue) ∧
    ((⟨"NewName", 0, "", false, "", 0⟩ : PatchRequest).codeValue ≠ "" →
      (⟨1, "NewName", 2, "A", true, "e", 5⟩ : Product).codeValue = "") ∧
    ((⟨"NewName", 0, "", false, "", 0⟩ : PatchRequest).isPublished = false →
      (⟨1, "NewName", 2, "A", true, "e", 5⟩ : Product).isPublished =
        (⟨1, "Old", 2, "A", true, "e", 5⟩ : Product).isPublished) ∧
    ((⟨"NewName", 0, "", false, "", 0⟩ : PatchRequest).isPublished = true →
      (⟨1, "NewName", 2, "A", true, "e", 5⟩ : Product).isPublished = true) ∧
    ((⟨"NewName", 0, "", false, "", 0⟩ : PatchRequest).expiration = "" →
      (⟨1, "NewName", 2, "A", true, "e", 5⟩ : Product).expiration =
        (⟨1, "Old", 2, "A", true, "e", 5⟩ : Product).expiration) ∧
    ((⟨"NewName", 0, "", false, "", 0⟩ : PatchRequest).expiration ≠ "" →
      (⟨1, "NewName", 2, "A", true, "e", 5⟩ : Product).expiration = "") ∧
    ((⟨"NewName", 0, "", false, "", 0⟩ : PatchRequest).price = 0 →
      (⟨1, "NewName", 2, "A", true, "e", 5⟩ : Product).price =
        (⟨1, "Old", 2, "A", true, "e", 5⟩ : Product).price) ∧
    ((⟨"NewName", 0, "", false, "", 0⟩ : PatchRequest).price ≠ 0 →
      (⟨1, "NewName", 2, "A", true, "e", 5⟩ : Product).price = 0) :=
  partial_update_frame "t" 0 "t" "1" ⟨"NewName", 0, "", false, "", 0⟩
    [⟨1, "Old", 2, "A", true, "e", 5⟩] [⟨1, "NewName", 2, "A", true, "e", 5⟩]
    1 ⟨1, "Old", 2, "A", true, "e", 5⟩ ⟨1, "NewName", 2, "A", true, "e", 5⟩
    { status := 200, body := .data ⟨1, "NewName", 2, "A", true, "e", 5⟩ }
    rfl (by decide) (by decide) (by decide) rfl rfl
